import Mathlib

/-!
Verification development for the go-inject dependency-resolution engine
(package `inject`: `Graph.Provide`, `Graph.Populate`, `Graph.populateExplicit`,
`Graph.populateUnnamedInterface`, and the struct-tag parser `Extract`).

The Go source is embedded shallowly:

* Go strings handled by `Extract` become `List Char` (the repository only
  feeds ASCII tags, where Go's byte indexing and char indexing agree).
* Runtime reflection is replaced by a symbolic type environment `Env`:
  struct types are indices into a field table, interface implementation is
  an explicit relation, and every managed field kind of the source
  (pointer-to-struct, interface, map, and other non-struct kinds) has a
  `Ty` constructor.  Struct-valued (inline) fields are outside the value
  universe modelled here; no claim concerns them.
* Caller-owned memory becomes an explicit heap of struct cells, so pointer
  identity (`==` on `interface{}` values, which the deep-injection
  tracking check relies on) is address equality.
* `*Object` identity is modelled by an object store indexed by `Nat`;
  the graph's `unnamed`/`named` collections hold indices.
* The mutually recursive resolution functions take a fuel parameter; fuel
  exhaustion is the `Outcome.spin` result and models divergence of the Go
  recursion (the Go functions are total on an input iff some fuel
  suffices).  All mutation is state-passing on `Graph`, and errors carry
  the state reached so far, matching Go's in-place mutation with no
  rollback.
-/

namespace GoInject

/-! ### Struct-tag extraction (`structtag.go`, `Extract`) -/

/-- Characters that may appear in an unquoted tag key: the scan in
`Extract` stops at a space, a colon or a double quote. -/
def keyChar (c : Char) : Bool :=
  !(c == ' ') && !(c == ':') && !(c == '"')

/-- The quoted-string scan of `Extract` (the loop advancing `i` over
`tag` starting after the opening quote): returns the raw content before
the closing quote and the remainder after it, or `none` when the quote
is unterminated.  A backslash skips the following character blindly,
exactly as the source does. -/
def scanQ : List Char → Option (List Char × List Char)
  | [] => none
  | '"' :: rest => some ([], rest)
  | '\\' :: c :: cs =>
    (scanQ cs).map (fun p => ('\\' :: c :: p.1, p.2))
  | '\\' :: [] => none
  | c :: cs => (scanQ cs).map (fun p => (c :: p.1, p.2))

/-- Hexadecimal digit value, as `strconv.unhex`. -/
def hexVal : Char → Option Nat
  | c =>
    if '0' ≤ c ∧ c ≤ '9' then some (c.toNat - '0'.toNat)
    else if 'a' ≤ c ∧ c ≤ 'f' then some (c.toNat - 'a'.toNat + 10)
    else if 'A' ≤ c ∧ c ≤ 'F' then some (c.toNat - 'A'.toNat + 10)
    else none

/-- Octal digit value. -/
def octVal (c : Char) : Option Nat :=
  if '0' ≤ c ∧ c ≤ '7' then some (c.toNat - '0'.toNat) else none

/-- `utf8.ValidRune` on a non-negative code point: everything up to the
maximum rune except the surrogate range.  `strconv.UnquoteChar` rejects
a `\u`/`\U` escape whose value fails this check. -/
def validRune (v : Nat) : Bool :=
  decide (v < 0xD800) || (decide (0xDFFF < v) && decide (v ≤ 0x10FFFF))

/-- Decode one backslash escape in a double-quoted Go string
(`strconv.UnquoteChar` with quote `"`), given the characters after the
backslash.  Returns the decoded character and the remainder, or `none`
on an invalid escape; a `\u`/`\U` escape must pass `utf8.ValidRune`
(so surrogates and out-of-range values are errors), while `\x` and
octal escapes denote bytes. -/
def unquoteEsc : List Char → Option (Char × List Char)
  | [] => none
  | 'a' :: r => some (Char.ofNat 0x07, r)
  | 'b' :: r => some (Char.ofNat 0x08, r)
  | 'f' :: r => some (Char.ofNat 0x0C, r)
  | 'n' :: r => some ('\n', r)
  | 'r' :: r => some (Char.ofNat 0x0D, r)
  | 't' :: r => some ('\t', r)
  | 'v' :: r => some (Char.ofNat 0x0B, r)
  | '\\' :: r => some ('\\', r)
  | '"' :: r => some ('"', r)
  | 'x' :: h1 :: h2 :: r =>
    match hexVal h1, hexVal h2 with
    | some a, some b => some (Char.ofNat (a * 16 + b), r)
    | _, _ => none
  | 'u' :: a :: b :: c :: d :: r =>
    match hexVal a, hexVal b, hexVal c, hexVal d with
    | some x1, some x2, some x3, some x4 =>
      let v := ((x1 * 16 + x2) * 16 + x3) * 16 + x4
      if validRune v then some (Char.ofNat v, r) else none
    | _, _, _, _ => none
  | 'U' :: a :: b :: c :: d :: e :: f :: gg :: h :: r =>
    match hexVal a, hexVal b, hexVal c, hexVal d,
          hexVal e, hexVal f, hexVal gg, hexVal h with
    | some x1, some x2, some x3, some x4, some x5, some x6, some x7, some x8 =>
      let v := ((((((x1 * 16 + x2) * 16 + x3) * 16 + x4) * 16 + x5) * 16
        + x6) * 16 + x7) * 16 + x8
      if validRune v then some (Char.ofNat v, r) else none
    | _, _, _, _, _, _, _, _ => none
  | c :: r =>
    match octVal c with
    | some o1 =>
      match r with
      | c2 :: c3 :: r' =>
        match octVal c2, octVal c3 with
        | some o2, some o3 =>
          let v := (o1 * 8 + o2) * 8 + o3
          if v > 255 then none else some (Char.ofNat v, r')
        | _, _ => none
      | _ => none
    | none => none

/-- Decode the inside of a double-quoted Go string
(`strconv.Unquote` on the quoted value, minus the newline check which
`unquoteContent` adds).  One unit of fuel is spent per decoded
character; every step consumes at least one input character, so
`s.length + 1` fuel always suffices. -/
def unqLoop : Nat → List Char → Option (List Char)
  | _, [] => some []
  | 0, _ :: _ => none
  | _ + 1, '"' :: _ => none
  | fuel + 1, '\\' :: rest =>
    match unquoteEsc rest with
    | none => none
    | some (c, rest') => (unqLoop fuel rest').map (fun cs => c :: cs)
  | fuel + 1, c :: rest => (unqLoop fuel rest).map (fun cs => c :: cs)

/-- `strconv.Unquote` applied to the quoted value `"` ++ content ++ `"`:
rejects embedded newlines, then decodes escapes. -/
def unquoteContent (s : List Char) : Option (List Char) :=
  if s.contains '\n' then none else unqLoop (s.length + 1) s

/-- The outcome of one iteration of the `Extract` scanning loop on the
current remainder of `tag`. -/
inductive HeadStep where
  /-- nothing but spaces left: the loop ends -/
  | done
  /-- syntax error: the key scan did not stop at `:` followed by `"`,
  or the quoted value is unterminated -/
  | bad
  /-- one `key:"content"` pair was scanned; `rest2` is the remainder -/
  | pair (key content rest2 : List Char)
  deriving DecidableEq, Repr

/-- One iteration of the `Extract` loop body: skip leading spaces, scan
the key up to a colon (a space or a quote is a syntax error), require
`:"`, scan the quoted value. -/
def headStep (tag : List Char) : HeadStep :=
  match tag.dropWhile (· == ' ') with
  | [] => .done
  | t1 =>
    match t1.dropWhile keyChar with
    | ':' :: '"' :: rest =>
      match scanQ rest with
      | none => .bad
      | some (content, rest2) => .pair (t1.takeWhile keyChar) content rest2
    | _ => .bad

/-- The scanning loop of `Extract`, with one unit of fuel per pair
(each iteration of the Go loop consumes at least three characters of
`tag`, so `tag.length + 1` fuel always suffices; see
`extractLoop_congr`). -/
def extractLoop (name : List Char) : Nat → List Char → Except Unit (Bool × List Char)
  | 0, _ => .error ()
  | fuel + 1, tag =>
    match headStep tag with
    | .done => .ok (false, [])
    | .bad => .error ()
    | .pair key content rest2 =>
      if key = name then
        match unquoteContent content with
        | none => .error ()
        | some v => .ok (true, v)
      else
        extractLoop name fuel rest2

/-- `Extract(name, tag)` from `structtag.go`: returns `(found, value)`
or an error.  `found = false` with no error means the key never
appeared. -/
def Extract (name tag : List Char) : Except Unit (Bool × List Char) :=
  extractLoop name (tag.length + 1) tag

/-! ### Tag directives (`parseTag` and the `tag` struct) -/

/-- The parsed `tag` struct of the source. -/
structure Tag where
  Name : String := ""
  Inline : Bool := false
  Private : Bool := false
  deriving DecidableEq, Repr

/-- `parseTag`: extracts the `inject` key and classifies the value
(`""` bare, `"inline"`, `"private"`, anything else a name).
`none` means the field carries no `inject` key and is unmanaged. -/
def parseTag (t : String) : Except Unit (Option Tag) :=
  match Extract "inject".toList t.toList with
  | .error _ => .error ()
  | .ok (false, _) => .ok none
  | .ok (true, v) =>
    if v = [] then .ok (some {})
    else if v = "inline".toList then .ok (some { Inline := true })
    else if v = "private".toList then .ok (some { Private := true })
    else .ok (some { Name := String.mk v })

/-! ### Reflection universe

The symbolic counterpart of `reflect.Type` / `reflect.Value` for the
field kinds the engine manages.  Struct types are indices into
`Env.structs`; interface, map and other ("primitive") types are opaque
indices.  Struct-valued fields (the `inline` branch) are outside this
universe. -/

/-- A field's declared type. -/
inductive Ty where
  /-- pointer to struct number `i` (the only pointer kind the engine
  accepts, per `isStructPtr`) -/
  | ptr (i : Nat)
  /-- interface type number `k` -/
  | iface (k : Nat)
  /-- a map type -/
  | mapTy (m : Nat)
  /-- any other kind (string, int, ...) -/
  | prim (p : Nat)
  deriving DecidableEq, Repr

/-- `isStructPtr` from the source: `t.Kind() == reflect.Ptr &&
t.Elem().Kind() == reflect.Struct`.  In this universe every pointer
points to a struct. -/
def isStructPtr : Ty → Bool
  | .ptr _ => true
  | _ => false

/-- An `interface{}` value held in `Object.Value`: either a non-nil
pointer to struct `i` living at heap address `a`, or an opaque value of
primitive type `p` with payload `n` (used only for named records of
non-struct-pointer type). -/
inductive GoVal where
  | ptr (i : Nat) (a : Nat)
  | raw (p : Nat) (n : Nat)
  deriving DecidableEq, Repr

/-- `reflect.TypeOf` of an `Object.Value`. -/
def goTypeOf : GoVal → Ty
  | .ptr i _ => .ptr i
  | .raw p _ => .prim p

/-- A value stored in a struct field, one constructor per managed
field kind. -/
inductive Val where
  /-- a struct-pointer field; `none` is the nil pointer -/
  | pv (a : Option Nat)
  /-- an interface field; `none` is the nil interface, otherwise the
  dynamic struct index and the address of the pointed-to cell -/
  | iv (v : Option (Nat × Nat))
  /-- a map field; `false` is the nil map -/
  | mv (made : Bool)
  /-- any other kind, with `0` the zero value -/
  | prim (n : Nat)
  deriving DecidableEq, Repr

/-- `isNilOrZero(field, type)`: `reflect.DeepEqual` of the field value
with the zero value of its type.  For pointers and interfaces that is
nil-ness (a non-nil pointer is never `DeepEqual` to nil), for maps
nil-ness, for other kinds equality with the zero value. -/
def isNilOrZero : Val → Bool
  | .pv none => true
  | .pv (some _) => false
  | .iv none => true
  | .iv (some _) => false
  | .mv made => !made
  | .prim n => n == 0

/-- The zero `Val` of a field type (`reflect.New` zeroes every field). -/
def zeroVal : Ty → Val
  | .ptr _ => .pv none
  | .iface _ => .iv none
  | .mapTy _ => .mv false
  | .prim _ => .prim 0

/-- A struct field as reflection reports it: name, declared type, raw
tag string, settability (false for unexported fields). -/
structure Field where
  name : String
  ty : Ty
  tag : String
  settable : Bool := true
  deriving DecidableEq, Repr

/-- The ambient type environment: the field table of every struct type
and the implements-relation between struct pointers and interfaces
(`(i, k)` present iff `*struct_i` is assignable to interface `k`). -/
structure Env where
  structs : List (List Field)
  impls : List (Nat × Nat) := []
  deriving Repr

/-- The fields of struct `i`. -/
def structFields (env : Env) (i : Nat) : List Field :=
  (env.structs.getD i [])

/-- `reflect.Type.AssignableTo`: identical types are assignable, and a
struct pointer is assignable to an interface it implements. -/
def assignableTo (env : Env) (src dst : Ty) : Bool :=
  if src = dst then true
  else
    match src, dst with
    | .ptr i, .iface k => env.impls.contains (i, k)
    | _, _ => false

/-- The `Val` stored when `field.Set(reflect.ValueOf(v))` runs on a
field of type `fty` (only reached after an assignability check). -/
def valOfGoVal (v : GoVal) (fty : Ty) : Val :=
  match v, fty with
  | .ptr _ a, .ptr _ => .pv (some a)
  | .ptr i a, .iface _ => .iv (some (i, a))
  | .raw _ n, _ => .prim n
  | .ptr _ a, _ => .pv (some a)

/-- A heap cell: one struct value, its type and its field contents in
declaration order. -/
structure HCell where
  ty : Nat
  fields : List Val
  deriving DecidableEq, Repr

/-! ### `Object` and `Graph` -/

/-- The `Object` struct.  `Fields` is `none` for a nil dependency map
(Go distinguishes a nil map from an empty one); entries map a field
name to the index of the satisfying object in the store.
`reflectType`/`reflectValue` are derived from `Value` by `goTypeOf` and
the heap instead of being cached. -/
structure Object where
  Value : GoVal
  Name : String := ""
  Complete : Bool := false
  Fields : Option (List (String × Nat)) := none
  «private» : Bool := false
  created : Bool := false
  embedded : Bool := false
  deriving DecidableEq, Repr

/-- The graph state: the ambient heap of struct cells, the object store
(list position is `*Object` identity), and the collections of the Go
`Graph` (`unnamed`, `unnamedType`, `named`) holding store indices. -/
structure Graph where
  heap : List HCell := []
  objs : List Object := []
  unnamed : List Nat := []
  unnamedType : List Nat := []
  named : List (String × Nat) := []
  deriving DecidableEq, Repr

/-- Read field `j` of the struct at heap address `a`. -/
def getFieldVal (g : Graph) (a j : Nat) : Val :=
  ((g.heap.getD a ⟨0, []⟩).fields.getD j (.prim 0))

/-- Write field `j` of the struct at heap address `a` (in-place
mutation of caller-owned memory). -/
def setFieldVal (g : Graph) (a j : Nat) (v : Val) : Graph :=
  let cell := g.heap.getD a ⟨0, []⟩
  { g with heap := g.heap.set a { cell with fields := cell.fields.set j v } }

/-- Insert into a dependency map, replacing an existing key. -/
def depInsert (l : List (String × Nat)) (f : String) (d : Nat) : List (String × Nat) :=
  match l with
  | [] => [(f, d)]
  | (f', d') :: rest =>
    if f' = f then (f, d) :: rest else (f', d') :: depInsert rest f d

/-- `Object.addDep`: allocate the map if nil, then store the edge. -/
def addDep (g : Graph) (oid : Nat) (f : String) (d : Nat) : Graph :=
  match g.objs.get? oid with
  | none => g
  | some o =>
    let o' : Object := { o with Fields := some (depInsert (o.Fields.getD []) f d) }
    { g with objs := g.objs.set oid o' }

/-- The `Object` at store index `oid` (total; the dummy default is never
reached on indices the graph hands out). -/
def objAt (g : Graph) (oid : Nat) : Object :=
  g.objs.getD oid { Value := .raw 0 0 }

/-- The error values `Provide`/`Populate` return (each constructor is
one `fmt.Errorf` site of the source; `namedInterfaceUnhandled` is the
`panic` in `populateUnnamedInterface`). -/
inductive Err where
  | fieldsSpecified
  | unnamedNotStructPtr
  | duplicateType (i : Nat)
  | duplicateName (s : String)
  | badTag (field : String)
  | notSettable (field : String)
  | inlineNonStruct (field : String)
  | missingNamed (tagName field : String)
  | notAssignableNamed (tagName field : String)
  | privateInterface (field : String)
  | namedInterfaceUnhandled (tagName : String)
  | mapMustBePrivate (field : String)
  | unsupportedField (field : String)
  | noAssignable (field : String)
  | twoAssignable (field : String) (first second : GoVal)
  deriving DecidableEq, Repr

/-- The outcome of a resolution step: success, a returned error, or
fuel exhaustion (`spin` models divergence of the Go recursion). -/
inductive Outcome where
  | ok
  | err (e : Err)
  | spin
  deriving DecidableEq, Repr

/-! ### `Graph.Provide` -/

/-- `Graph.Provide` for a single object: reject a non-nil dependency
map; unnamed values must be struct pointers and, unless private, of a
concrete type not yet taken; named values must use a fresh name.  The
registered object's store index is returned along with the new state.
(The optional `Logger` notifications carry no state and are omitted.) -/
def provide (g : Graph) (o : Object) : Except Err (Graph × Nat) :=
  if o.Fields ≠ none then .error .fieldsSpecified
  else
    let oid := g.objs.length
    if o.Name = "" then
      if !isStructPtr (goTypeOf o.Value) then .error .unnamedNotStructPtr
      else
        match goTypeOf o.Value with
        | .ptr i =>
          if !o.«private» then
            if g.unnamedType.contains i then .error (.duplicateType i)
            else
              .ok ({ g with objs := g.objs ++ [o],
                            unnamedType := g.unnamedType ++ [i],
                            unnamed := g.unnamed ++ [oid] }, oid)
          else
            .ok ({ g with objs := g.objs ++ [o],
                          unnamed := g.unnamed ++ [oid] }, oid)
        | _ => .error .unnamedNotStructPtr
    else
      if (g.named.lookup o.Name).isSome then .error (.duplicateName o.Name)
      else
        .ok ({ g with objs := g.objs ++ [o],
                      named := g.named ++ [(o.Name, oid)] }, oid)

/-- Register a list of objects left to right, stopping at the first
error (the loop body of the variadic `Provide`). -/
def provideList (g : Graph) : List Object → Except Err Graph
  | [] => .ok g
  | o :: rest =>
    match provide g o with
    | .error e => .error e
    | .ok (g', _) => provideList g' rest

/-! ### The explicit (pointer/value) resolution pass
(`Graph.populateExplicit`) -/

/-- The deep-injection tracking check: is some unnamed object's `Value`
the very reference `v` (Go compares `interface{}` values with `==`,
which for struct pointers is pointer identity)? -/
def isTracked (g : Graph) (v : GoVal) : Bool :=
  g.unnamed.any (fun id => (objAt g id).Value == v)

/-- The reuse search of the explicit pass: the first unnamed,
non-private object whose concrete type is assignable to the field type
(iteration order is the order of `g.unnamed`). -/
def findReuse (env : Env) (g : Graph) (fty : Ty) : List Nat → Option Nat
  | [] => none
  | id :: rest =>
    let ex := objAt g id
    if !ex.«private» && assignableTo env (goTypeOf ex.Value) fty then some id
    else findReuse env g fty rest

/-- The per-field loop of `populateExplicit` over the fields of the
struct at heap address `a`, owned by object `oid`.  `recur` is the
recursive call back into `populateExplicit` (deep injection and
newly-created dependencies); `j` is the field index.  Branch order
follows the source exactly; the source's inline-struct branch cannot
fire because struct-valued fields are outside the modelled universe. -/
def fieldsLoopE (env : Env) (recur : Nat → Graph → Outcome × Graph)
    (oid a : Nat) : Nat → List Field → Graph → Outcome × Graph
  | _, [], g => (.ok, g)
  | j, f :: rest, g =>
    match parseTag f.tag with
    | .error _ => (.err (.badTag f.name), g)
    | .ok none => fieldsLoopE env recur oid a (j + 1) rest g
    | .ok (some tg) =>
      if !f.settable then (.err (.notSettable f.name), g)
      else if tg.Inline then (.err (.inlineNonStruct f.name), g)
      else
        let v := getFieldVal g a j
        if !isNilOrZero v then
          -- an existing value is never overwritten, but a tracked-or-new
          -- struct pointer may need deep injection
          if isStructPtr f.ty && !tg.Private then
            match f.ty, v with
            | .ptr i', .pv (some a') =>
              let ev : GoVal := .ptr i' a'
              if isTracked g ev then fieldsLoopE env recur oid a (j + 1) rest g
              else
                match provide g { Value := ev } with
                | .error _ =>
                  -- the source guards the recursion with `err == nil` and
                  -- discards a failed registration silently
                  fieldsLoopE env recur oid a (j + 1) rest g
                | .ok (g', nid) =>
                  match recur nid g' with
                  | (.ok, g'') => fieldsLoopE env recur oid a (j + 1) rest g''
                  | r => r
            | _, _ => fieldsLoopE env recur oid a (j + 1) rest g
          else fieldsLoopE env recur oid a (j + 1) rest g
        else if tg.Name ≠ "" then
          match g.named.lookup tg.Name with
          | none => (.err (.missingNamed tg.Name f.name), g)
          | some nid =>
            let ex := objAt g nid
            if !assignableTo env (goTypeOf ex.Value) f.ty then
              (.err (.notAssignableNamed tg.Name f.name), g)
            else
              let g1 := addDep (setFieldVal g a j (valOfGoVal ex.Value f.ty)) oid f.name nid
              fieldsLoopE env recur oid a (j + 1) rest g1
        else
          match f.ty with
          | .iface _ =>
            -- interface injection is handled in the second pass
            fieldsLoopE env recur oid a (j + 1) rest g
          | .mapTy _ =>
            if !tg.Private then (.err (.mapMustBePrivate f.name), g)
            else fieldsLoopE env recur oid a (j + 1) rest (setFieldVal g a j (.mv true))
          | .prim _ => (.err (.unsupportedField f.name), g)
          | .ptr i' =>
            let reuse := if tg.Private then none else findReuse env g f.ty g.unnamed
            match reuse with
            | some eid =>
              let g1 := addDep (setFieldVal g a j (valOfGoVal (objAt g eid).Value f.ty))
                oid f.name eid
              fieldsLoopE env recur oid a (j + 1) rest g1
            | none =>
              -- reflect.New: a fresh zero cell of the pointee type
              let a' := g.heap.length
              let gh : Graph := { g with
                heap := g.heap ++ [⟨i', (structFields env i').map (fun fd => zeroVal fd.ty)⟩] }
              match provide gh { Value := .ptr i' a', «private» := tg.Private,
                                 created := true } with
              | .error e => (.err e, gh)
              | .ok (g', nid) =>
                match recur nid g' with
                | (.ok, g'') =>
                  let g1 := addDep (setFieldVal g'' a j (.pv (some a'))) oid f.name nid
                  fieldsLoopE env recur oid a (j + 1) rest g1
                | r => r

/-- `Graph.populateExplicit`, with fuel bounding the recursion depth.
Named objects whose value is not a struct pointer are skipped. -/
def populateExplicitF (env : Env) : Nat → Nat → Graph → Outcome × Graph
  | 0, _, g => (.spin, g)
  | fuel + 1, oid, g =>
    let o := objAt g oid
    if o.Name ≠ "" && !isStructPtr (goTypeOf o.Value) then (.ok, g)
    else
      match o.Value with
      | .ptr i a =>
        fieldsLoopE env (populateExplicitF env fuel) oid a 0 (structFields env i) g
      | .raw _ _ =>
        -- unreachable: Provide only admits struct pointers unnamed
        (.ok, g)

/-! ### The capability (interface) resolution pass
(`Graph.populateUnnamedInterface`) -/

/-- The candidate scan for one interface field (the `for _, existing :=
range g.unnamed` loop): the first assignable non-private candidate is
assigned immediately and its edge recorded; a second assignable
candidate aborts with the ambiguity error, naming both values. -/
def ifaceScan (env : Env) (oid a j : Nat) (fname : String) (fty : Ty)
    (found : Option Nat) (cands : List Nat) (g : Graph) : Outcome × Graph × Option Nat :=
  match cands with
  | [] => (.ok, g, found)
  | id :: rest =>
    let ex := objAt g id
    if ex.«private» then ifaceScan env oid a j fname fty found rest g
    else if assignableTo env (goTypeOf ex.Value) fty then
      match found with
      | some fid =>
        (.err (.twoAssignable fname (objAt g fid).Value ex.Value), g, found)
      | none =>
        let g1 := addDep (setFieldVal g a j (valOfGoVal ex.Value fty)) oid fname id
        ifaceScan env oid a j fname fty (some id) rest g1
    else ifaceScan env oid a j fname fty found rest g

/-- Resolve one unset bare interface field: scan all unnamed objects;
no candidate at all is the no-assignable-value error. -/
def resolveIface (env : Env) (oid a j : Nat) (fname : String) (fty : Ty)
    (g : Graph) : Outcome × Graph :=
  match ifaceScan env oid a j fname fty none g.unnamed g with
  | (.ok, g', none) => (.err (.noAssignable fname), g')
  | (.ok, g', some _) => (.ok, g')
  | (r, g', _) => (r, g')

/-- The per-field loop of `populateUnnamedInterface`: only interface
fields are treated; a private directive is rejected, existing values
are kept, and a named directive here is the source's `panic`. -/
def fieldsLoopI (env : Env) (oid a : Nat) : Nat → List Field → Graph → Outcome × Graph
  | _, [], g => (.ok, g)
  | j, f :: rest, g =>
    match parseTag f.tag with
    | .error _ => (.err (.badTag f.name), g)
    | .ok none => fieldsLoopI env oid a (j + 1) rest g
    | .ok (some tg) =>
      match f.ty with
      | .iface _ =>
        if tg.Private then (.err (.privateInterface f.name), g)
        else if !isNilOrZero (getFieldVal g a j) then
          fieldsLoopI env oid a (j + 1) rest g
        else if tg.Name ≠ "" then (.err (.namedInterfaceUnhandled tg.Name), g)
        else
          match resolveIface env oid a j f.name f.ty g with
          | (.ok, g1) => fieldsLoopI env oid a (j + 1) rest g1
          | r => r
      | _ => fieldsLoopI env oid a (j + 1) rest g

/-- `Graph.populateUnnamedInterface`.  Named objects whose value is not
a struct pointer are skipped, as in the explicit pass. -/
def populateUnnamedInterfaceF (env : Env) (oid : Nat) (g : Graph) : Outcome × Graph :=
  let o := objAt g oid
  if o.Name ≠ "" && !isStructPtr (goTypeOf o.Value) then (.ok, g)
  else
    match o.Value with
    | .ptr i a => fieldsLoopI env oid a 0 (structFields env i) g
    | .raw _ _ => (.ok, g)

/-! ### `Graph.Populate`: the four ordered passes -/

/-- Is the object at `oid` marked complete? -/
def isComplete (g : Graph) (oid : Nat) : Bool :=
  (objAt g oid).Complete

/-- Pass 1/4 driver over a snapshot of the named collection (the
explicit pass may append unnamed objects but never named ones).  Go
ranges over the `named` map in unspecified order; here the insertion
order stands in for it, and no property proved below depends on it. -/
def passNamed (env : Env) (fuel : Nat)
    (step : Env → Nat → Nat → Graph → Outcome × Graph) :
    List (String × Nat) → Graph → Outcome × Graph
  | [], g => (.ok, g)
  | (_, oid) :: rest, g =>
    if isComplete g oid then passNamed env fuel step rest g
    else
      match step env fuel oid g with
      | (.ok, g') => passNamed env fuel step rest g'
      | r => r

/-- Pass 2: iterate `g.unnamed` by index, because resolution appends to
it mid-pass; the loop ends when the index reaches the current length.
Each iteration costs one unit of fuel. -/
def passUnnamedExplicit (env : Env) : Nat → Nat → Graph → Outcome × Graph
  | 0, _, g => (.spin, g)
  | fuel + 1, i, g =>
    if i == g.unnamed.length then (.ok, g)
    else
      let oid := g.unnamed.getD i 0
      if isComplete g oid then passUnnamedExplicit env fuel (i + 1) g
      else
        match populateExplicitF env (fuel + 1) oid g with
        | (.ok, g') => passUnnamedExplicit env fuel (i + 1) g'
        | r => r

/-- Pass 3: the interface pass over a snapshot of `g.unnamed` (this
pass never registers new objects). -/
def passIface (env : Env) : List Nat → Graph → Outcome × Graph
  | [], g => (.ok, g)
  | oid :: rest, g =>
    if isComplete g oid then passIface env rest g
    else
      match populateUnnamedInterfaceF env oid g with
      | (.ok, g') => passIface env rest g'
      | r => r

/-- `Graph.Populate`: named explicit, unnamed explicit (index loop),
unnamed interface, named interface; the first error aborts with the
state reached so far (no rollback). -/
def populateF (env : Env) (fuel : Nat) (g : Graph) : Outcome × Graph :=
  match passNamed env fuel populateExplicitF g.named g with
  | (.ok, g1) =>
    match passUnnamedExplicit env fuel 0 g1 with
    | (.ok, g2) =>
      match passIface env g2.unnamed g2 with
      | (.ok, g3) => passNamed env fuel (fun e _ => populateUnnamedInterfaceF e) g3.named g3
      | r => r
    | r => r
  | r => r

/-! ### Scenario: deep injection (`TestDeepInjectWithMixedProvision`)

`ServiceA` is struct 0 (no managed fields), `ServiceB` is struct 1 with
field `A *ServiceA inject-tagged bare, `ServiceC` is struct 2 with
field `B *ServiceB` inject-tagged bare.  The caller builds `serviceA`
at address 0, a `ServiceB` with nil `A` at address 1, and
`serviceC = ServiceC{B: &ServiceB}` at address 2, then provides
`serviceA` and `serviceC`. -/

def envABC : Env :=
  { structs := [ [],
                 [⟨"A", .ptr 0, "inject:\"\"", true⟩],
                 [⟨"B", .ptr 1, "inject:\"\"", true⟩] ] }

def gStartC1 : Graph :=
  { heap := [⟨0, []⟩, ⟨1, [.pv none]⟩, ⟨2, [.pv (some 1)]⟩] }

def gInitC1 : Graph :=
  { heap := [⟨0, []⟩, ⟨1, [.pv none]⟩, ⟨2, [.pv (some 1)]⟩],
    objs := [{ Value := .ptr 0 0 }, { Value := .ptr 2 2 }],
    unnamed := [0, 1],
    unnamedType := [0, 2] }

def gFinC1 : Graph :=
  { heap := [⟨0, []⟩, ⟨1, [.pv (some 0)]⟩, ⟨2, [.pv (some 1)]⟩],
    objs := [{ Value := .ptr 0 0 }, { Value := .ptr 2 2 },
             { Value := .ptr 1 1, Fields := some [("A", 0)] }],
    unnamed := [0, 1, 2],
    unnamedType := [0, 2, 1] }

/-! ### Scenario: explicit pointer resolution (reuse / create / private) -/

/-- Like `envABC` but `ServiceB.A` carries a `private` directive. -/
def envPrivA : Env :=
  { structs := [ [], [⟨"A", .ptr 0, "inject:\"private\"", true⟩] ] }

def gInitAB : Graph :=
  { heap := [⟨0, []⟩, ⟨1, [.pv none]⟩],
    objs := [{ Value := .ptr 0 0 }, { Value := .ptr 1 1 }],
    unnamed := [0, 1],
    unnamedType := [0, 1] }

def gFinAB : Graph :=
  { heap := [⟨0, []⟩, ⟨1, [.pv (some 0)]⟩],
    objs := [{ Value := .ptr 0 0 },
             { Value := .ptr 1 1, Fields := some [("A", 0)] }],
    unnamed := [0, 1],
    unnamedType := [0, 1] }

def gInitBonly : Graph :=
  { heap := [⟨1, [.pv none]⟩],
    objs := [{ Value := .ptr 1 0 }],
    unnamed := [0],
    unnamedType := [1] }

def gFinBonly : Graph :=
  { heap := [⟨1, [.pv (some 1)]⟩, ⟨0, []⟩],
    objs := [{ Value := .ptr 1 0, Fields := some [("A", 1)] },
             { Value := .ptr 0 1, created := true }],
    unnamed := [0, 1],
    unnamedType := [1, 0] }

def gFinPriv : Graph :=
  { heap := [⟨0, []⟩, ⟨1, [.pv (some 2)]⟩, ⟨0, []⟩],
    objs := [{ Value := .ptr 0 0 },
             { Value := .ptr 1 1, Fields := some [("A", 2)] },
             { Value := .ptr 0 2, «private» := true, created := true }],
    unnamed := [0, 1, 2],
    unnamedType := [0, 1] }

/-! ### Cycle safety and divergence -/

/-- The cyclic instance graph of `TestDeepInjectCircularDependency`:
`CircularA` is struct 0 with field `B *CircularB`, `CircularB` is
struct 1 with field `A interface` (both implement it), and the caller
links `a.B = b`, `b.A = a` before providing both. -/
def envCyc : Env :=
  { structs := [ [⟨"B", .ptr 1, "inject:\"\"", true⟩],
                 [⟨"A", .iface 0, "inject:\"\"", true⟩] ],
    impls := [(0, 0), (1, 0)] }

def gInitCyc : Graph :=
  { heap := [⟨0, [.pv (some 1)]⟩, ⟨1, [.iv (some (0, 0))]⟩],
    objs := [{ Value := .ptr 0 0 }, { Value := .ptr 1 1 }],
    unnamed := [0, 1],
    unnamedType := [0, 1] }

/-- A struct whose single managed field demands a private instance of
the struct's own type: resolution must create a fresh private instance
whose own field again demands one, without end. -/
def envLoop : Env :=
  { structs := [ [⟨"S", .ptr 0, "inject:\"private\"", true⟩] ] }

def gInitLoop : Graph :=
  { heap := [⟨0, [.pv none]⟩],
    objs := [{ Value := .ptr 0 0 }],
    unnamed := [0],
    unnamedType := [0] }

/-! ### Silently-swallowed deep-injection registration failures

Two distinct `ServiceA` instances exist: one provided (address 0), one
held only by the provided `ServiceB`'s field (address 1).  Deep
injection discovers the one at address 1, whose registration fails with
the duplicate-concrete-type error; `populateExplicit` guards the
recursion with an err-is-nil check and drops the error. -/

def gInitDup : Graph :=
  { heap := [⟨0, []⟩, ⟨0, []⟩, ⟨1, [.pv (some 1)]⟩],
    objs := [{ Value := .ptr 0 0 }, { Value := .ptr 1 2 }],
    unnamed := [0, 1],
    unnamedType := [0, 1] }

/-- A struct with an inject-tagged field of unsupported kind, for
observing that a resolution error propagates to the caller. -/
def envBadF : Env :=
  { structs := [ [⟨"N", .prim 0, "inject:\"\"", true⟩] ] }

def gBadF : Graph :=
  { heap := [⟨0, [.prim 0]⟩],
    objs := [{ Value := .ptr 0 0 }],
    unnamed := [0],
    unnamedType := [0] }

/-! ### Registration-time checks (`Provide`) -/

/-- A fresh unnamed record of struct type `i` at address `a`. -/
def mkU (i a : Nat) (p : Bool) : Object :=
  { Value := .ptr i a, «private» := p }

/-! ### The capability scan: zero, one, or many candidates -/

/-- Is unnamed record `id` a candidate for a field of type `fty`:
non-private and assignable? -/
def isCandidate (env : Env) (g : Graph) (fty : Ty) (id : Nat) : Bool :=
  !(objAt g id).«private» && assignableTo env (goTypeOf (objAt g id).Value) fty

/-- The state after the scan assigns candidate `c` to field `j` of the
struct at `a` and records the edge on object `oid`. -/
def assignState (env : Env) (g : Graph) (oid a j : Nat) (fname : String)
    (fty : Ty) (c : Nat) : Graph :=
  addDep (setFieldVal g a j (valOfGoVal (objAt g c).Value fty)) oid fname c

/-! ### Capability-pass scenarios -/

/-- Structs 0 and 1 implement interface 0; struct 2 has one bare
interface field `L`. -/
def envIf : Env :=
  { structs := [ [], [], [⟨"L", .iface 0, "inject:\"\"", true⟩] ],
    impls := [(0, 0), (1, 0)] }

def gInitTwoCands : Graph :=
  { heap := [⟨0, []⟩, ⟨1, []⟩, ⟨2, [.iv none]⟩],
    objs := [{ Value := .ptr 0 0 }, { Value := .ptr 1 1 }, { Value := .ptr 2 2 }],
    unnamed := [0, 1, 2],
    unnamedType := [0, 1, 2] }

def gAmbFinal : Graph :=
  { heap := [⟨0, []⟩, ⟨1, []⟩, ⟨2, [.iv (some (0, 0))]⟩],
    objs := [{ Value := .ptr 0 0 }, { Value := .ptr 1 1 },
             { Value := .ptr 2 2, Fields := some [("L", 0)] }],
    unnamed := [0, 1, 2],
    unnamedType := [0, 1, 2] }

def gInitOneCand : Graph :=
  { heap := [⟨0, []⟩, ⟨2, [.iv none]⟩],
    objs := [{ Value := .ptr 0 0 }, { Value := .ptr 2 1 }],
    unnamed := [0, 1],
    unnamedType := [0, 2] }

def gOneFinal : Graph :=
  { heap := [⟨0, []⟩, ⟨2, [.iv (some (0, 0))]⟩],
    objs := [{ Value := .ptr 0 0 },
             { Value := .ptr 2 1, Fields := some [("L", 0)] }],
    unnamed := [0, 1],
    unnamedType := [0, 2] }

def gInitZeroCand : Graph :=
  { heap := [⟨2, [.iv none]⟩],
    objs := [{ Value := .ptr 2 0 }],
    unnamed := [0],
    unnamedType := [2] }

/-! ### Named records of non-struct-pointer type are skipped -/

def gNamedRaw : Graph :=
  { objs := [{ Value := .raw 7 3, Name := "cfg" }],
    named := [("cfg", 0)] }

/-! ### The struct-tag parser: errors and key absence -/

/-- Scan-level structural parse of a whole tag: the list of
`(key, raw-content)` pairs, or `none` when some pair is malformed at
the scanning level (missing colon, missing opening quote, unterminated
quote). -/
def pairsLoop : Nat → List Char → Option (List (List Char × List Char))
  | 0, _ => none
  | fuel + 1, tag =>
    match headStep tag with
    | .done => some []
    | .bad => none
    | .pair key content rest2 =>
      (pairsLoop fuel rest2).map (fun ps => (key, content) :: ps)

def pairsOf (tag : List Char) : Option (List (List Char × List Char)) :=
  pairsLoop (tag.length + 1) tag

/-- The inputs on which the `Extract` scan hits an error: left to
right, well-formed pairs with non-matching keys may be skipped; then
either a scan-level-malformed pair appears, or the matching key's
value fails to unquote. -/
inductive ErrScan (name : List Char) : List Char → Prop
  | bad (tag : List Char) : headStep tag = .bad → ErrScan name tag
  | badValue (tag content rest2 : List Char) :
      headStep tag = .pair name content rest2 → unquoteContent content = none →
      ErrScan name tag
  | skip (tag key content rest2 : List Char) :
      headStep tag = .pair key content rest2 → key ≠ name →
      ErrScan name rest2 → ErrScan name tag

/-! ## Theorems -/

/-- C1: deep injection.  Providing `serviceA` and
`ServiceC{B: &ServiceB{}}` and populating succeeds; the pre-built
`ServiceB` value (address 1), whose reference is held by no unnamed
record, is registered as a new unnamed record that is neither private
nor created, its tagged field `A` is resolved to the provided
`serviceA` instance (address 0), and the outer field `ServiceC.B` keeps
its original value. -/
theorem fieldsLoopE_deep_inject (env : Env) (recur : Nat → Graph → Outcome × Graph)
    (oid a j : Nat) (f : Field) (rest : List Field) (g g' : Graph)
    (i' a' nid : Nat) (tg : Tag)
    (hs : f.settable = true)
    (hparse : parseTag f.tag = .ok (some tg))
    (hinl : tg.Inline = false)
    (hpriv : tg.Private = false)
    (hty : f.ty = .ptr i')
    (hv : getFieldVal g a j = .pv (some a'))
    (htr : isTracked g (.ptr i' a') = false)
    (hpro : provide g { Value := .ptr i' a' } = .ok (g', nid)) :
    fieldsLoopE env recur oid a j (f :: rest) g =
      match recur nid g' with
      | (.ok, g'') => fieldsLoopE env recur oid a (j + 1) rest g''
      | r => r := by
  simp [fieldsLoopE, hparse, hs, hinl, hpriv, hty, hv, htr, hpro, isNilOrZero,
    isStructPtr]

/-- C1: deep injection.  In general (first conjunct), when a bare
struct-pointer field of a tracked record already holds a non-nil value
not tracked by any unnamed record, the field step registers that value
(as a fresh record with default flags: not private, not created),
recursively resolves it, and moves on without writing the field.
Concretely: providing `serviceA` and `ServiceC{B: &ServiceB{}}` and
populating succeeds; the pre-built `ServiceB` value (address 1), whose
reference is held by no unnamed record, is registered as a new unnamed
record that is neither private nor created, its tagged field `A` is
resolved to the provided `serviceA` instance (address 0), and the outer
field `ServiceC.B` keeps its original value. -/
theorem c1_deep_injection :
    (∀ (env : Env) (recur : Nat → Graph → Outcome × Graph) (oid a j : Nat)
        (f : Field) (rest : List Field) (g g' : Graph) (i' a' nid : Nat) (tg : Tag),
      f.settable = true → parseTag f.tag = .ok (some tg) → tg.Inline = false →
      tg.Private = false → f.ty = .ptr i' →
      getFieldVal g a j = .pv (some a') → isTracked g (.ptr i' a') = false →
      provide g { Value := .ptr i' a' } = .ok (g', nid) →
      fieldsLoopE env recur oid a j (f :: rest) g =
        match recur nid g' with
        | (.ok, g'') => fieldsLoopE env recur oid a (j + 1) rest g''
        | r => r) ∧
    (provideList gStartC1 [{ Value := .ptr 0 0 }, { Value := .ptr 2 2 }] = .ok gInitC1 ∧
      isTracked gInitC1 (.ptr 1 1) = false ∧
      populateF envABC 10 gInitC1 = (.ok, gFinC1) ∧
      getFieldVal gFinC1 2 0 = getFieldVal gStartC1 2 0 ∧
      getFieldVal gFinC1 1 0 = .pv (some 0) ∧
      objAt gFinC1 2 = { Value := .ptr 1 1, Fields := some [("A", 0)] } ∧
      (objAt gFinC1 2).«private» = false ∧
      (objAt gFinC1 2).created = false ∧
      gFinC1.unnamed = [0, 1, 2]) :=
  ⟨fun env recur oid a j f rest g g' i' a' nid tg hs hp hi hpr hty hv htr hpro =>
     fieldsLoopE_deep_inject env recur oid a j f rest g g' i' a' nid tg
       hs hp hi hpr hty hv htr hpro,
   rfl, rfl, rfl, rfl, rfl, rfl, rfl, rfl, rfl⟩

/-- Witness for `c1_deep_injection`: the general deep-injection step at
`ServiceC.B` in the concrete scenario. -/
theorem c1_deep_injection_witness :
    isTracked gInitC1 (.ptr 1 1) = false ∧
    getFieldVal gInitC1 2 0 = .pv (some 1) ∧
    fieldsLoopE envABC (fun _ g => (.ok, g)) 1 2 0
        [⟨"B", Ty.ptr 1, "inject:\"\"", true⟩] gInitC1 =
      match (fun (_ : Nat) (g : Graph) => ((.ok : Outcome), g)) 2
          { gInitC1 with
            objs := gInitC1.objs ++ [{ Value := .ptr 1 1 }],
            unnamed := [0, 1, 2],
            unnamedType := [0, 2, 1] } with
      | (.ok, g'') => fieldsLoopE envABC (fun _ g => (.ok, g)) 1 2 1 [] g''
      | r => r :=
  ⟨rfl, rfl,
   c1_deep_injection.1 envABC (fun _ g => (.ok, g)) 1 2 0
     ⟨"B", Ty.ptr 1, "inject:\"\"", true⟩ [] gInitC1
     ({ gInitC1 with
        objs := gInitC1.objs ++ [{ Value := .ptr 1 1 }],
        unnamed := [0, 1, 2],
        unnamedType := [0, 2, 1] }) 1 1 2
     { Name := "", Inline := false, Private := false }
     rfl rfl rfl rfl rfl rfl rfl rfl⟩

/-- The explicit pass's reuse search is the first unnamed record that
is non-private and assignable. -/
theorem findReuse_eq_find (env : Env) (g : Graph) (fty : Ty) :
    ∀ l : List Nat, findReuse env g fty l = l.find? (isCandidate env g fty) := by
  intro l
  induction l with
  | nil => rfl
  | cons id rest ih =>
    have hdef : (!(objAt g id).«private» &&
        assignableTo env (goTypeOf (objAt g id).Value) fty) =
        isCandidate env g fty id := rfl
    simp only [findReuse, hdef, List.find?]
    cases h : isCandidate env g fty id
    · simp [ih]
    · simp

/-- When the reuse search succeeds on a zero bare pointer field, the
explicit field step assigns the found record's value, records the edge,
and moves on without recursing. -/
theorem fieldsLoopE_reuse (env : Env) (recur : Nat → Graph → Outcome × Graph)
    (oid a j : Nat) (f : Field) (rest : List Field) (g : Graph) (tg : Tag)
    (i' eid : Nat)
    (hs : f.settable = true) (hparse : parseTag f.tag = .ok (some tg))
    (hinl : tg.Inline = false) (hpriv : tg.Private = false)
    (hname : tg.Name = "") (hzero : isNilOrZero (getFieldVal g a j) = true)
    (hty : f.ty = .ptr i')
    (hfind : findReuse env g f.ty g.unnamed = some eid) :
    fieldsLoopE env recur oid a j (f :: rest) g =
      fieldsLoopE env recur oid a (j + 1) rest
        (addDep (setFieldVal g a j (valOfGoVal (objAt g eid).Value f.ty)) oid f.name eid) := by
  rw [hty] at hfind
  simp [fieldsLoopE, hparse, hs, hinl, hpriv, hname, hzero, hty, hfind]

/-- C3: zero-valued bare pointer field.  In general the reuse search is
the first non-private assignable unnamed record, and a successful
search makes the field step assign exactly that record's value and
record the edge.  (reuse) With `serviceA` provided, `ServiceB.A` is
assigned the registered instance itself (address 0, the value of
unnamed record 0) and the edge is recorded.  (create) With no
assignable record, a fresh zero value of the pointee type is allocated
at a new address, registered with `created = true` and
`private = false`, and assigned, with the edge recorded.  (private)
With a `private` directive the existing `serviceA` is ignored: a fresh
instance is created and registered with `created = true` and
`private = true`, and it is not entered into the taken-type set. -/
theorem c3_explicit_pointer_resolution :
    (∀ (env : Env) (g : Graph) (fty : Ty) (l : List Nat),
      findReuse env g fty l = l.find? (isCandidate env g fty)) ∧
    (∀ (env : Env) (recur : Nat → Graph → Outcome × Graph) (oid a j : Nat)
        (f : Field) (rest : List Field) (g : Graph) (tg : Tag) (i' eid : Nat),
      f.settable = true → parseTag f.tag = .ok (some tg) → tg.Inline = false →
      tg.Private = false → tg.Name = "" →
      isNilOrZero (getFieldVal g a j) = true → f.ty = .ptr i' →
      findReuse env g f.ty g.unnamed = some eid →
      fieldsLoopE env recur oid a j (f :: rest) g =
        fieldsLoopE env recur oid a (j + 1) rest
          (addDep (setFieldVal g a j (valOfGoVal (objAt g eid).Value f.ty))
            oid f.name eid)) ∧
    (provideList { heap := [⟨0, []⟩, ⟨1, [.pv none]⟩] }
        [{ Value := .ptr 0 0 }, { Value := .ptr 1 1 }] = .ok gInitAB ∧
      populateF envABC 10 gInitAB = (.ok, gFinAB) ∧
      getFieldVal gFinAB 1 0 = .pv (some 0) ∧
      (objAt gFinAB 0).Value = .ptr 0 0 ∧
      objAt gFinAB 1 = { Value := .ptr 1 1, Fields := some [("A", 0)] }) ∧
    (provideList { heap := [⟨1, [.pv none]⟩] } [{ Value := .ptr 1 0 }] = .ok gInitBonly ∧
      populateF envABC 10 gInitBonly = (.ok, gFinBonly) ∧
      getFieldVal gFinBonly 0 0 = .pv (some 1) ∧
      gFinBonly.heap.getD 1 ⟨9, []⟩ = ⟨0, []⟩ ∧
      objAt gFinBonly 1 =
        { Value := .ptr 0 1, created := true, «private» := false } ∧
      objAt gFinBonly 0 = { Value := .ptr 1 0, Fields := some [("A", 1)] } ∧
      gFinBonly.unnamed = [0, 1]) ∧
    (provideList { heap := [⟨0, []⟩, ⟨1, [.pv none]⟩] }
        [{ Value := .ptr 0 0 }, { Value := .ptr 1 1 }] = .ok gInitAB ∧
      populateF envPrivA 10 gInitAB = (.ok, gFinPriv) ∧
      getFieldVal gFinPriv 1 0 = .pv (some 2) ∧
      objAt gFinPriv 2 =
        { Value := .ptr 0 2, created := true, «private» := true } ∧
      objAt gFinPriv 1 = { Value := .ptr 1 1, Fields := some [("A", 2)] } ∧
      gFinPriv.unnamedType = [0, 1]) :=
  ⟨findReuse_eq_find,
   fun env recur oid a j f rest g tg i' eid hs hp hi hpr hn hz hty hf =>
     fieldsLoopE_reuse env recur oid a j f rest g tg i' eid hs hp hi hpr hn hz hty hf,
   ⟨rfl, rfl, rfl, rfl, rfl⟩, ⟨rfl, rfl, rfl, rfl, rfl, rfl, rfl⟩,
   ⟨rfl, rfl, rfl, rfl, rfl, rfl⟩⟩

/-- Witness for `c3_explicit_pointer_resolution`: the general
reuse-step clause at the `ServiceB.A` field of the reuse scenario. -/
theorem c3_explicit_pointer_resolution_witness :
    (⟨"A", Ty.ptr 0, "inject:\"\"", true⟩ : Field).settable = true ∧
    parseTag "inject:\"\"" = .ok (some { Name := "", Inline := false, Private := false }) ∧
    isNilOrZero (getFieldVal gInitAB 1 0) = true ∧
    findReuse envABC gInitAB (Ty.ptr 0) gInitAB.unnamed = some 0 ∧
    fieldsLoopE envABC (fun _ g => (.ok, g)) 1 1 0
        [⟨"A", Ty.ptr 0, "inject:\"\"", true⟩] gInitAB =
      fieldsLoopE envABC (fun _ g => (.ok, g)) 1 1 1 []
        (addDep (setFieldVal gInitAB 1 0
          (valOfGoVal (objAt gInitAB 0).Value (Ty.ptr 0))) 1 "A" 0) :=
  ⟨rfl, rfl, rfl, rfl,
   c3_explicit_pointer_resolution.2.1 envABC (fun _ g => (.ok, g)) 1 1 0
     ⟨"A", Ty.ptr 0, "inject:\"\"", true⟩ [] gInitAB
     { Name := "", Inline := false, Private := false } 0 0
     rfl rfl rfl rfl rfl rfl rfl rfl⟩

/-- Re-encountering a non-nil struct-pointer field whose value is
already tracked (reference identity against the unnamed collection) is
a no-op: the explicit pass moves to the next field without mutating
anything and without recursing. -/
theorem fieldsLoopE_tracked_noop (env : Env) (recur : Nat → Graph → Outcome × Graph)
    (oid a j : Nat) (f : Field) (rest : List Field) (g : Graph)
    (i' a' : Nat) (tg : Tag)
    (hs : f.settable = true)
    (hparse : parseTag f.tag = .ok (some tg))
    (hinl : tg.Inline = false)
    (hty : f.ty = .ptr i')
    (hv : getFieldVal g a j = .pv (some a'))
    (htr : isTracked g (.ptr i' a') = true) :
    fieldsLoopE env recur oid a j (f :: rest) g =
      fieldsLoopE env recur oid a (j + 1) rest g := by
  by_cases hp : tg.Private
  · simp [fieldsLoopE, hparse, hs, hinl, hv, hty, hp, isNilOrZero]
  · simp [fieldsLoopE, hparse, hs, hinl, hv, hty, hp, htr, isNilOrZero]

/-- Reading just past the end of a list after appending one element. -/
theorem getD_append_length {α : Type} (l : List α) (x d : α) :
    (l ++ [x]).getD l.length d = x := by
  induction l with
  | nil => rfl
  | cons h t ih => simp only [List.cons_append, List.getD_cons_succ, List.length_cons, ih]

/-- On `envLoop`, the explicit pass spins at every fuel: each step
registers a fresh private instance whose own field is again zero. -/
theorem populateExplicitF_envLoop_spin :
    ∀ (n : Nat) (g : Graph) (oid a : Nat),
      (objAt g oid).Name = "" → (objAt g oid).Value = .ptr 0 a →
      getFieldVal g a 0 = .pv none →
      (populateExplicitF envLoop n oid g).1 = .spin := by
  intro n
  induction n with
  | zero => intro g oid a _ _ _; rfl
  | succ n ih =>
    intro g oid a hname hval hv
    have hparse : parseTag "inject:\"private\"" = .ok (some { Private := true }) := rfl
    have hfields : structFields envLoop 0 =
        [⟨"S", Ty.ptr 0, "inject:\"private\"", true⟩] := rfl
    simp [populateExplicitF, hname, hval, hfields, fieldsLoopE, hparse,
      hv, isNilOrZero, provide, zeroVal, goTypeOf, isStructPtr]
    set gnew : Graph :=
      { g with
        heap := g.heap ++ [⟨0, [Val.pv none]⟩],
        objs := g.objs ++
          [{ Value := .ptr 0 g.heap.length, «private» := true, created := true }],
        unnamed := g.unnamed ++ [g.objs.length] } with hgnew
    have h1 : (objAt gnew g.objs.length).Name = "" := by
      simp [objAt, hgnew, getD_append_length]
    have h2 : (objAt gnew g.objs.length).Value = .ptr 0 g.heap.length := by
      simp [objAt, hgnew, getD_append_length]
    have h3 : getFieldVal gnew g.heap.length 0 = .pv none := by
      simp [getFieldVal, hgnew, getD_append_length]
    have hrec := ih gnew g.objs.length g.heap.length h1 h2 h3
    rcases hres : populateExplicitF envLoop n g.objs.length gnew with ⟨r, gr⟩
    rw [hres] at hrec
    simp only at hrec
    cases r with
    | spin => rfl
    | ok => exact absurd hrec (by simp)
    | err e => exact absurd hrec (by simp)

/-- On `envLoop` the whole `Populate` run spins at every fuel. -/
theorem populateF_envLoop_spin (n : Nat) :
    (populateF envLoop n gInitLoop).1 = .spin := by
  have hpass : ∀ m, (passUnnamedExplicit envLoop m 0 gInitLoop).1 = .spin := by
    intro m
    cases m with
    | zero => rfl
    | succ m =>
      have hspin := populateExplicitF_envLoop_spin (m + 1) gInitLoop 0 0 rfl rfl rfl
      rcases hres : populateExplicitF envLoop (m + 1) 0 gInitLoop with ⟨r, gr⟩
      rw [hres] at hspin
      simp only at hspin
      subst hspin
      simp only [gInitLoop] at hres
      simp [passUnnamedExplicit, gInitLoop, isComplete, objAt, hres]
  simp only [populateF]
  have hnamed : passNamed envLoop n populateExplicitF gInitLoop.named gInitLoop =
      (.ok, gInitLoop) := rfl
  rw [hnamed]
  rcases hres : passUnnamedExplicit envLoop n 0 gInitLoop with ⟨r, gr⟩
  have := hpass n
  rw [hres] at this
  simp only at this
  subst this
  simp [hres]

/-- C2 (amended): the cyclic manually-built instance graph of the test
(`a.B = b`, `b.A = a`, both provided) populates successfully without
altering any state — the cycle is preserved — and, in general,
re-encountering a non-nil struct-pointer field whose value is already
tracked by reference identity is a no-op of the explicit field loop:
the state is returned unchanged and the loop moves to the next field
without recursing. -/
theorem c2_cyclic_populate_terminates :
    (provideList { heap := [⟨0, [.pv (some 1)]⟩, ⟨1, [.iv (some (0, 0))]⟩] }
        [{ Value := .ptr 0 0 }, { Value := .ptr 1 1 }] = .ok gInitCyc ∧
      populateF envCyc 10 gInitCyc = (.ok, gInitCyc) ∧
      getFieldVal gInitCyc 0 0 = .pv (some 1) ∧
      getFieldVal gInitCyc 1 0 = .iv (some (0, 0))) ∧
    (∀ (env : Env) (recur : Nat → Graph → Outcome × Graph) (oid a j : Nat)
        (f : Field) (rest : List Field) (g : Graph) (i' a' : Nat) (tg : Tag),
      f.settable = true → parseTag f.tag = .ok (some tg) → tg.Inline = false →
      f.ty = .ptr i' → getFieldVal g a j = .pv (some a') →
      isTracked g (.ptr i' a') = true →
      fieldsLoopE env recur oid a j (f :: rest) g =
        fieldsLoopE env recur oid a (j + 1) rest g) :=
  ⟨⟨rfl, rfl, rfl, rfl⟩,
   fun env recur oid a j f rest g i' a' tg hs hp hi hty hv htr =>
     fieldsLoopE_tracked_noop env recur oid a j f rest g i' a' tg hs hp hi hty hv htr⟩

/-- Witness for `c2_cyclic_populate_terminates`: the no-op clause at the
cyclic scenario's own field `B` of `CircularA`. -/
theorem c2_cyclic_populate_terminates_witness :
    (⟨"B", Ty.ptr 1, "inject:\"\"", true⟩ : Field).settable = true ∧
    parseTag "inject:\"\"" = .ok (some {}) ∧
    (({} : Tag)).Inline = false ∧
    getFieldVal gInitCyc 0 0 = .pv (some 1) ∧
    isTracked gInitCyc (.ptr 1 1) = true ∧
    fieldsLoopE envCyc (fun _ g => (.ok, g)) 0 0 0
        [⟨"B", Ty.ptr 1, "inject:\"\"", true⟩] gInitCyc =
      fieldsLoopE envCyc (fun _ g => (.ok, g)) 0 0 1 [] gInitCyc :=
  ⟨rfl, rfl, rfl, rfl, rfl,
   c2_cyclic_populate_terminates.2 envCyc (fun _ g => (.ok, g)) 0 0 0
     ⟨"B", Ty.ptr 1, "inject:\"\"", true⟩ [] gInitCyc 1 1 {}
     rfl rfl rfl rfl rfl rfl⟩

/-- C2 counterexample: `populate()` does not terminate on every finite
set of provided records.  A single record of a struct whose only
managed field demands a `private` instance of that same struct type
makes the explicit pass create private instances forever: no amount of
fuel makes `Populate` return success. -/
theorem c2_counterexample :
    provideList { heap := [⟨0, [.pv none]⟩] } [{ Value := .ptr 0 0 }] = .ok gInitLoop ∧
    ¬ ∃ (n : Nat) (g' : Graph), populateF envLoop n gInitLoop = (.ok, g') := by
  refine ⟨rfl, ?_⟩
  rintro ⟨n, g', h⟩
  have hs := populateF_envLoop_spin n
  rw [h] at hs
  simp at hs

/-- C5 counterexample: a failure inside `populate` is not reported.
The deep-injection discovery at address 1 is untracked, registering it
fails with the duplicate-concrete-type error, yet `Populate` returns
success. -/
theorem c5_counterexample :
    provideList { heap := [⟨0, []⟩, ⟨0, []⟩, ⟨1, [.pv (some 1)]⟩] }
        [{ Value := .ptr 0 0 }, { Value := .ptr 1 2 }] = .ok gInitDup ∧
    isTracked gInitDup (.ptr 0 1) = false ∧
    getFieldVal gInitDup 2 0 = .pv (some 1) ∧
    provide gInitDup { Value := .ptr 0 1 } = .error (.duplicateType 0) ∧
    populateF envABC 10 gInitDup = (.ok, gInitDup) :=
  ⟨rfl, rfl, rfl, rfl, rfl⟩

/-- An error from a per-record resolution step aborts the unnamed
explicit pass and is handed up unchanged. -/
theorem passUnnamedExplicit_err (env : Env) (fuel i : Nat) (g : Graph)
    (e : Err) (g' : Graph)
    (hlen : i ≠ g.unnamed.length)
    (hcomp : isComplete g (g.unnamed.getD i 0) = false)
    (hstep : populateExplicitF env (fuel + 1) (g.unnamed.getD i 0) g = (.err e, g')) :
    passUnnamedExplicit env (fuel + 1) i g = (.err e, g') := by
  have hne : (i == g.unnamed.length) = false := by simp [hlen]
  simp only [List.getD_eq_getElem?_getD] at hcomp hstep
  simp [passUnnamedExplicit, hne, hcomp, hstep]

/-- An error from the unnamed explicit pass is the result of
`Populate` itself. -/
theorem populateF_err_pass2 (env : Env) (fuel : Nat) (g g1 g2 : Graph) (e : Err)
    (h1 : passNamed env fuel populateExplicitF g.named g = (.ok, g1))
    (h2 : passUnnamedExplicit env fuel 0 g1 = (.err e, g2)) :
    populateF env fuel g = (.err e, g2) := by
  simp [populateF, h1, h2]

/-- C5 (amended): an error from a per-record resolution step aborts its
pass and is returned unchanged by `Populate` (first two conjuncts), but
a deep-injection registration failure is silently skipped: in the
duplicate-type scenario `Populate` succeeds, the field keeps its value,
and the discovered value remains untracked — the final state is the
input state, unchanged. -/
theorem c5_deep_injection_failure_swallowed :
    (∀ (env : Env) (fuel i : Nat) (g : Graph) (e : Err) (g' : Graph),
      i ≠ g.unnamed.length → isComplete g (g.unnamed.getD i 0) = false →
      populateExplicitF env (fuel + 1) (g.unnamed.getD i 0) g = (.err e, g') →
      passUnnamedExplicit env (fuel + 1) i g = (.err e, g')) ∧
    (∀ (env : Env) (fuel : Nat) (g g1 g2 : Graph) (e : Err),
      passNamed env fuel populateExplicitF g.named g = (.ok, g1) →
      passUnnamedExplicit env fuel 0 g1 = (.err e, g2) →
      populateF env fuel g = (.err e, g2)) ∧
    (populateF envABC 10 gInitDup = (.ok, gInitDup) ∧
      getFieldVal gInitDup 2 0 = .pv (some 1) ∧
      gInitDup.unnamed = [0, 1] ∧
      isTracked gInitDup (.ptr 0 1) = false) :=
  ⟨passUnnamedExplicit_err, populateF_err_pass2, rfl, rfl, rfl, rfl⟩

/-- Witness for `c5_deep_injection_failure_swallowed`: an
unsupported-field-kind error raised on record 0 propagates through the
unnamed pass and out of `Populate`. -/
theorem c5_deep_injection_failure_swallowed_witness :
    (0 : Nat) ≠ gBadF.unnamed.length ∧
    isComplete gBadF (gBadF.unnamed.getD 0 0) = false ∧
    populateExplicitF envBadF 5 (gBadF.unnamed.getD 0 0) gBadF =
      (.err (.unsupportedField "N"), gBadF) ∧
    passUnnamedExplicit envBadF 5 0 gBadF = (.err (.unsupportedField "N"), gBadF) ∧
    passNamed envBadF 5 populateExplicitF gBadF.named gBadF = (.ok, gBadF) ∧
    populateF envBadF 5 gBadF = (.err (.unsupportedField "N"), gBadF) :=
  ⟨by decide, rfl, rfl,
   c5_deep_injection_failure_swallowed.1 envBadF 4 0 gBadF
     (.unsupportedField "N") gBadF (by decide) rfl rfl,
   rfl,
   c5_deep_injection_failure_swallowed.2.1 envBadF 5 gBadF gBadF gBadF
     (.unsupportedField "N") rfl rfl⟩

/-- C6 (amended): `Provide` rejects with the pre-filled-dependency-map
error exactly when the record's dependency map is non-nil — including a
present-but-empty map (Go checks `o.Fields != nil`, not emptiness). -/
theorem c6_prefilled_fields_iff_nonnil (g : Graph) (o : Object) :
    provide g o = .error .fieldsSpecified ↔ o.Fields ≠ none := by
  constructor
  · intro h
    by_contra hn
    revert h
    by_cases hname : o.Name = ""
    · by_cases hsp : isStructPtr (goTypeOf o.Value)
      · cases hty : goTypeOf o.Value with
        | ptr i =>
          by_cases hp : o.«private» <;> by_cases hc : i ∈ g.unnamedType <;>
            simp [provide, hn, hname, hsp, hty, hp, hc, isStructPtr]
        | iface k => simp [provide, hn, hname, hsp, hty]
        | mapTy m => simp [provide, hn, hname, hsp, hty]
        | prim p => simp [provide, hn, hname, hsp, hty]
      · simp [provide, hn, hname, hsp]
    · by_cases hl : (g.named.lookup o.Name).isSome <;>
        simp [provide, hn, hname, hl]
  · intro h
    simp [provide, h]

/-- C6 counterexample: a record whose dependency map is empty (but
allocated, i.e. non-nil) is rejected, although the claim says only
non-empty maps are. -/
theorem c6_counterexample :
    provide {} { Value := .ptr 0 0, Fields := some [] } = .error .fieldsSpecified ∧
    ({ Value := GoVal.ptr 0 0, Fields := some [] } : Object).Fields.getD [] = [] :=
  ⟨rfl, rfl⟩

/-- C7: providing two distinct unnamed instances of the same concrete
type fails on the second `Provide` with the duplicate-concrete-type
error exactly when both are non-private, and succeeds exactly when at
least one is private. -/
theorem c7_duplicate_type (i a1 a2 : Nat) (p1 p2 : Bool) (hne : a1 ≠ a2) :
    (provideList {} [mkU i a1 p1, mkU i a2 p2] = .error (.duplicateType i) ↔
      p1 = false ∧ p2 = false) ∧
    ((∃ g, provideList {} [mkU i a1 p1, mkU i a2 p2] = .ok g) ↔
      (p1 = true ∨ p2 = true)) := by
  cases p1 <;> cases p2 <;>
    simp [provideList, provide, mkU, goTypeOf, isStructPtr]

/-- Witness for `c7_duplicate_type` at type 5, addresses 0 and 1. -/
theorem c7_duplicate_type_witness :
    (0 : Nat) ≠ 1 ∧
    ((provideList {} [mkU 5 0 false, mkU 5 1 false] = .error (.duplicateType 5) ↔
        False = False ∧ False = False) ∧
      ((∃ g, provideList {} [mkU 5 0 false, mkU 5 1 false] = .ok g) ↔
        (False = True ∨ False = True))) := by
  constructor
  · decide
  · have h := c7_duplicate_type 5 0 1 false false (by decide)
    simpa using h

theorem get?_some_getD {α : Type} (l : List α) (i : Nat) (x d : α)
    (h : l.get? i = some x) : l.getD i d = x := by
  induction l generalizing i with
  | nil => simp at h
  | cons a t ih =>
    cases i with
    | zero => simp at h; simp [h]
    | succ n =>
      simp only [List.get?_cons_succ] at h
      simp only [List.getD_cons_succ]
      exact ih n h

theorem get?_some_lt {α : Type} (l : List α) (i : Nat) (x : α)
    (h : l.get? i = some x) : i < l.length := by
  induction l generalizing i with
  | nil => simp at h
  | cons a t ih =>
    cases i with
    | zero => simp
    | succ n =>
      simp only [List.get?_cons_succ] at h
      simpa using ih n h

theorem getD_set_self {α : Type} (l : List α) (i : Nat) (x d : α)
    (h : i < l.length) : (l.set i x).getD i d = x := by
  induction l generalizing i with
  | nil => simp at h
  | cons a t ih =>
    cases i with
    | zero => rfl
    | succ n =>
      show (a :: t.set n x).getD (n + 1) d = x
      simp only [List.getD_cons_succ]
      exact ih n (by simpa using h)

theorem getD_set_ne {α : Type} (l : List α) (i j : Nat) (x d : α)
    (h : i ≠ j) : (l.set i x).getD j d = l.getD j d := by
  induction l generalizing i j with
  | nil => rfl
  | cons a t ih =>
    cases i with
    | zero =>
      cases j with
      | zero => exact absurd rfl h
      | succ m => rfl
    | succ n =>
      cases j with
      | zero => rfl
      | succ m =>
        show (a :: t.set n x).getD (m + 1) d = (a :: t).getD (m + 1) d
        simp only [List.getD_cons_succ]
        exact ih n m (fun hnm => h (by rw [hnm]))

/-- Writing a field value does not touch the object store. -/
theorem objAt_setFieldVal (g : Graph) (a j : Nat) (v : Val) (id : Nat) :
    objAt (setFieldVal g a j v) id = objAt g id := rfl

/-- Recording a dependency edge does not change any object's value. -/
theorem objAt_addDep_Value (g : Graph) (oid : Nat) (f : String) (d id : Nat) :
    (objAt (addDep g oid f d) id).Value = (objAt g id).Value := by
  unfold addDep
  cases h : g.objs.get? oid with
  | none => rfl
  | some o =>
    simp only [objAt]
    by_cases hid : oid = id
    · subst hid
      rw [getD_set_self _ _ _ _ (get?_some_lt _ _ _ h),
        get?_some_getD _ _ _ _ h]
    · rw [getD_set_ne _ _ _ _ _ hid]

/-- Recording a dependency edge does not change any privacy flag. -/
theorem objAt_addDep_private (g : Graph) (oid : Nat) (f : String) (d id : Nat) :
    (objAt (addDep g oid f d) id).«private» = (objAt g id).«private» := by
  unfold addDep
  cases h : g.objs.get? oid with
  | none => rfl
  | some o =>
    simp only [objAt]
    by_cases hid : oid = id
    · subst hid
      rw [getD_set_self _ _ _ _ (get?_some_lt _ _ _ h),
        get?_some_getD _ _ _ _ h]
    · rw [getD_set_ne _ _ _ _ _ hid]

/-- Candidate-hood is invariant under the scan's own mutations. -/
theorem isCandidate_assignState (env : Env) (g : Graph) (oid a j : Nat)
    (fname : String) (fty : Ty) (c : Nat) (fty' : Ty) (id : Nat) :
    isCandidate env (assignState env g oid a j fname fty c) fty' id =
      isCandidate env g fty' id := by
  unfold isCandidate assignState
  rw [objAt_addDep_Value, objAt_addDep_private, objAt_setFieldVal]

/-- Object values are invariant under the scan's own mutations. -/
theorem value_assignState (env : Env) (g : Graph) (oid a j : Nat)
    (fname : String) (fty : Ty) (c : Nat) (id : Nat) :
    (objAt (assignState env g oid a j fname fty c) id).Value = (objAt g id).Value := by
  unfold assignState
  rw [objAt_addDep_Value, objAt_setFieldVal]

/-- The scan with a candidate already found: if no further candidate is
among `cands` it succeeds without mutating anything; the first further
candidate `c` aborts with the ambiguity error naming both values. -/
theorem ifaceScan_found (env : Env) (oid a j : Nat) (fname : String) (fty : Ty) :
    ∀ (cands : List Nat) (g : Graph) (fid : Nat),
      (cands.filter (isCandidate env g fty) = [] →
        ifaceScan env oid a j fname fty (some fid) cands g = (.ok, g, some fid)) ∧
      (∀ c t, cands.filter (isCandidate env g fty) = c :: t →
        ifaceScan env oid a j fname fty (some fid) cands g =
          (.err (.twoAssignable fname (objAt g fid).Value (objAt g c).Value),
            g, some fid)) := by
  intro cands
  induction cands with
  | nil =>
    intro g fid
    exact ⟨fun _ => rfl, fun c t h => by simp at h⟩
  | cons id rest ih =>
    intro g fid
    by_cases hpriv : (objAt g id).«private»
    · have hcand : isCandidate env g fty id = false := by simp [isCandidate, hpriv]
      have hscan : ifaceScan env oid a j fname fty (some fid) (id :: rest) g =
          ifaceScan env oid a j fname fty (some fid) rest g := by
        simp [ifaceScan, hpriv]
      constructor
      · intro h
        simp only [List.filter_cons, hcand, Bool.false_eq_true, if_false] at h
        rw [hscan]
        exact (ih g fid).1 h
      · intro c t h
        simp only [List.filter_cons, hcand, Bool.false_eq_true, if_false] at h
        rw [hscan]
        exact (ih g fid).2 c t h
    · by_cases hass : assignableTo env (goTypeOf (objAt g id).Value) fty
      · have hcand : isCandidate env g fty id = true := by
          simp [isCandidate, hpriv, hass]
        constructor
        · intro h
          simp only [List.filter_cons, hcand, if_true] at h
          exact absurd h (by simp)
        · intro c t h
          simp only [List.filter_cons, hcand, if_true] at h
          obtain ⟨rfl, -⟩ : id = c ∧ rest.filter (isCandidate env g fty) = t :=
            ⟨by injection h, by injection h⟩
          simp [ifaceScan, hpriv, hass]
      · have hcand : isCandidate env g fty id = false := by
          simp [isCandidate, hass]
        have hscan : ifaceScan env oid a j fname fty (some fid) (id :: rest) g =
            ifaceScan env oid a j fname fty (some fid) rest g := by
          simp [ifaceScan, hpriv, hass]
        constructor
        · intro h
          simp only [List.filter_cons, hcand, Bool.false_eq_true, if_false] at h
          rw [hscan]
          exact (ih g fid).1 h
        · intro c t h
          simp only [List.filter_cons, hcand, Bool.false_eq_true, if_false] at h
          rw [hscan]
          exact (ih g fid).2 c t h

/-- The scan from scratch: no candidate in `cands` leaves the state
untouched with nothing found; exactly one candidate `c` assigns it and
records the edge; a second candidate aborts with the ambiguity error
naming the first two candidates, after the first has already been
assigned. -/
theorem ifaceScan_none (env : Env) (oid a j : Nat) (fname : String) (fty : Ty) :
    ∀ (cands : List Nat) (g : Graph),
      (cands.filter (isCandidate env g fty) = [] →
        ifaceScan env oid a j fname fty none cands g = (.ok, g, none)) ∧
      (∀ c, cands.filter (isCandidate env g fty) = [c] →
        ifaceScan env oid a j fname fty none cands g =
          (.ok, assignState env g oid a j fname fty c, some c)) ∧
      (∀ c c2 t, cands.filter (isCandidate env g fty) = c :: c2 :: t →
        ifaceScan env oid a j fname fty none cands g =
          (.err (.twoAssignable fname (objAt g c).Value (objAt g c2).Value),
            assignState env g oid a j fname fty c, some c)) := by
  intro cands
  induction cands with
  | nil =>
    intro g
    exact ⟨fun _ => rfl, fun c h => by simp at h, fun c c2 t h => by simp at h⟩
  | cons id rest ih =>
    intro g
    by_cases hpriv : (objAt g id).«private»
    · have hcand : isCandidate env g fty id = false := by simp [isCandidate, hpriv]
      have hscan : ifaceScan env oid a j fname fty none (id :: rest) g =
          ifaceScan env oid a j fname fty none rest g := by
        simp [ifaceScan, hpriv]
      refine ⟨fun h => ?_, fun c h => ?_, fun c c2 t h => ?_⟩ <;>
        simp only [List.filter_cons, hcand, Bool.false_eq_true, if_false] at h <;>
        rw [hscan]
      · exact (ih g).1 h
      · exact (ih g).2.1 c h
      · exact (ih g).2.2 c c2 t h
    · by_cases hass : assignableTo env (goTypeOf (objAt g id).Value) fty
      · have hcand : isCandidate env g fty id = true := by
          simp [isCandidate, hpriv, hass]
        have hscan : ifaceScan env oid a j fname fty none (id :: rest) g =
            ifaceScan env oid a j fname fty (some id) rest
              (assignState env g oid a j fname fty id) := by
          simp [ifaceScan, hpriv, hass, assignState]
        have hfilter : rest.filter
              (isCandidate env (assignState env g oid a j fname fty id) fty) =
            rest.filter (isCandidate env g fty) := by
          apply List.filter_congr
          intro x _
          exact isCandidate_assignState env g oid a j fname fty id fty x
        refine ⟨fun h => ?_, fun c h => ?_, fun c c2 t h => ?_⟩ <;>
          simp only [List.filter_cons, hcand, if_true] at h
        · exact absurd h (by simp)
        · obtain ⟨rfl, hrest⟩ : id = c ∧ rest.filter (isCandidate env g fty) = [] :=
            ⟨by injection h, by injection h⟩
          rw [hscan]
          exact (ifaceScan_found env oid a j fname fty rest
            (assignState env g oid a j fname fty id) id).1 (hfilter.trans hrest)
        · obtain ⟨rfl, hrest⟩ :
              id = c ∧ rest.filter (isCandidate env g fty) = c2 :: t :=
            ⟨by injection h, by injection h⟩
          rw [hscan]
          have := (ifaceScan_found env oid a j fname fty rest
            (assignState env g oid a j fname fty id) id).2 c2 t
            (hfilter.trans hrest)
          rw [this, value_assignState, value_assignState]
      · have hcand : isCandidate env g fty id = false := by
          simp [isCandidate, hass]
        have hscan : ifaceScan env oid a j fname fty none (id :: rest) g =
            ifaceScan env oid a j fname fty none rest g := by
          simp [ifaceScan, hpriv, hass]
        refine ⟨fun h => ?_, fun c h => ?_, fun c c2 t h => ?_⟩ <;>
          simp only [List.filter_cons, hcand, Bool.false_eq_true, if_false] at h <;>
          rw [hscan]
        · exact (ih g).1 h
        · exact (ih g).2.1 c h
        · exact (ih g).2.2 c c2 t h

/-- C4: resolving an unset non-private bare interface field scans the
non-private unnamed records assignable to the field type.  In general
(first conjunct): no candidate yields the no-assignable-value error
with the state untouched; exactly one candidate `c` yields success with
`c` assigned and the edge recorded; two or more candidates yield the
ambiguity error naming the first two candidates' values.  Concretely:
with two implementing records `Populate` fails with the ambiguity error
naming both; with the second one removed it succeeds and assigns the
sole candidate; with none it fails with the no-assignable-value
error. -/
theorem c4_capability_trichotomy :
    (∀ (env : Env) (g : Graph) (oid a j : Nat) (fname : String) (fty : Ty),
      (g.unnamed.filter (isCandidate env g fty) = [] →
        resolveIface env oid a j fname fty g = (.err (.noAssignable fname), g)) ∧
      (∀ c, g.unnamed.filter (isCandidate env g fty) = [c] →
        resolveIface env oid a j fname fty g =
          (.ok, assignState env g oid a j fname fty c)) ∧
      (∀ c c2 t, g.unnamed.filter (isCandidate env g fty) = c :: c2 :: t →
        resolveIface env oid a j fname fty g =
          (.err (.twoAssignable fname (objAt g c).Value (objAt g c2).Value),
            assignState env g oid a j fname fty c))) ∧
    (populateF envIf 10 gInitTwoCands =
        (.err (.twoAssignable "L" (.ptr 0 0) (.ptr 1 1)), gAmbFinal) ∧
      populateF envIf 10 gInitOneCand = (.ok, gOneFinal) ∧
      getFieldVal gOneFinal 1 0 = .iv (some (0, 0)) ∧
      objAt gOneFinal 1 = { Value := .ptr 2 1, Fields := some [("L", 0)] } ∧
      populateF envIf 10 gInitZeroCand = (.err (.noAssignable "L"), gInitZeroCand)) := by
  refine ⟨fun env g oid a j fname fty => ⟨fun h => ?_, fun c h => ?_,
    fun c c2 t h => ?_⟩, rfl, rfl, rfl, rfl, rfl⟩
  · simp only [resolveIface, (ifaceScan_none env oid a j fname fty g.unnamed g).1 h]
  · simp only [resolveIface, (ifaceScan_none env oid a j fname fty g.unnamed g).2.1 c h]
  · simp only [resolveIface, (ifaceScan_none env oid a j fname fty g.unnamed g).2.2 c c2 t h]

/-- Witness for `c4_capability_trichotomy`: the one-candidate clause at
the concrete one-candidate graph. -/
theorem c4_capability_trichotomy_witness :
    gInitOneCand.unnamed.filter (isCandidate envIf gInitOneCand (.iface 0)) = [0] ∧
    resolveIface envIf 1 1 0 "L" (.iface 0) gInitOneCand =
      (.ok, assignState envIf gInitOneCand 1 1 0 "L" (.iface 0) 0) :=
  ⟨rfl, (c4_capability_trichotomy.1 envIf gInitOneCand 1 1 0 "L" (.iface 0)).2.1 0 rfl⟩

/-- Looking up a key right after inserting it. -/
theorem depInsert_lookup (l : List (String × Nat)) (f : String) (d : Nat) :
    (depInsert l f d).lookup f = some d := by
  induction l with
  | nil => simp [depInsert, List.lookup]
  | cons p rest ih =>
    obtain ⟨f', d'⟩ := p
    by_cases hf : f' = f
    · simp [depInsert, hf, List.lookup]
    · simp only [depInsert, hf, if_false]
      have : (f == f') = false := by
        simp [Ne.symm hf]
      simp [List.lookup, this, ih]

/-- Reading back a just-written field value (in-range writes). -/
theorem getFieldVal_setFieldVal (g : Graph) (a j : Nat) (v : Val)
    (ha : a < g.heap.length) (hj : j < (g.heap.getD a ⟨0, []⟩).fields.length) :
    getFieldVal (setFieldVal g a j v) a j = v := by
  unfold getFieldVal setFieldVal
  simp only []
  rw [getD_set_self _ _ _ _ ha]
  exact getD_set_self _ _ _ _ hj

/-- Recording an edge never touches the heap. -/
theorem getFieldVal_addDep (g : Graph) (oid : Nat) (f : String) (d a j : Nat) :
    getFieldVal (addDep g oid f d) a j = getFieldVal g a j := by
  unfold addDep
  cases g.objs.get? oid <;> rfl

/-- An in-range optional read agrees with the defaulted read. -/
theorem lt_get?_getD {α : Type} (l : List α) (i : Nat) (d : α)
    (h : i < l.length) : l.get? i = some (l.getD i d) := by
  induction l generalizing i with
  | nil => simp at h
  | cons x t ih =>
    cases i with
    | zero => rfl
    | succ n =>
      simp only [List.get?_cons_succ, List.getD_cons_succ]
      exact ih n (by simpa using h)

/-- The dependency map after `addDep` holds the new edge. -/
theorem addDep_lookup (g : Graph) (oid : Nat) (f : String) (d : Nat)
    (hoid : oid < g.objs.length) :
    ((objAt (addDep g oid f d) oid).Fields.getD []).lookup f = some d := by
  have hsome : g.objs.get? oid = some (objAt g oid) :=
    lt_get?_getD g.objs oid _ hoid
  unfold addDep
  rw [hsome]
  simp only [objAt]
  rw [getD_set_self _ _ _ _ (by simpa using hoid)]
  exact depInsert_lookup _ f d

/-- C10: when the capability scan aborts with the ambiguity error, the
field has already been assigned the first matching candidate and the
edge recorded: the returned state is exactly the first-candidate
assignment state, in which the field holds the first candidate's value
and the owner's dependency map maps the field to it. -/
theorem c10_ambiguity_keeps_first_assignment
    (env : Env) (g : Graph) (oid a j : Nat) (fname : String) (fty : Ty)
    (c c2 : Nat) (t : List Nat)
    (hfl : g.unnamed.filter (isCandidate env g fty) = c :: c2 :: t)
    (ha : a < g.heap.length)
    (hj : j < (g.heap.getD a ⟨0, []⟩).fields.length)
    (hoid : oid < g.objs.length) :
    resolveIface env oid a j fname fty g =
      (.err (.twoAssignable fname (objAt g c).Value (objAt g c2).Value),
        assignState env g oid a j fname fty c) ∧
    getFieldVal (assignState env g oid a j fname fty c) a j =
      valOfGoVal (objAt g c).Value fty ∧
    ((objAt (assignState env g oid a j fname fty c) oid).Fields.getD []).lookup
      fname = some c := by
  refine ⟨?_, ?_, ?_⟩
  · simp only [resolveIface,
      (ifaceScan_none env oid a j fname fty g.unnamed g).2.2 c c2 t hfl]
  · unfold assignState
    rw [getFieldVal_addDep]
    exact getFieldVal_setFieldVal g a j _ ha hj
  · unfold assignState
    exact addDep_lookup _ oid fname c (by simpa [setFieldVal] using hoid)

/-- Witness for `c10_ambiguity_keeps_first_assignment`: the concrete
two-candidate graph; record 0 is assigned before the error. -/
theorem c10_ambiguity_keeps_first_assignment_witness :
    gInitTwoCands.unnamed.filter (isCandidate envIf gInitTwoCands (.iface 0)) =
      [0, 1] ∧
    (2 : Nat) < gInitTwoCands.heap.length ∧
    (0 : Nat) < (gInitTwoCands.heap.getD 2 ⟨0, []⟩).fields.length ∧
    (2 : Nat) < gInitTwoCands.objs.length ∧
    (resolveIface envIf 2 2 0 "L" (.iface 0) gInitTwoCands =
        (.err (.twoAssignable "L" (objAt gInitTwoCands 0).Value
          (objAt gInitTwoCands 1).Value),
          assignState envIf gInitTwoCands 2 2 0 "L" (.iface 0) 0) ∧
      getFieldVal (assignState envIf gInitTwoCands 2 2 0 "L" (.iface 0) 0) 2 0 =
        valOfGoVal (objAt gInitTwoCands 0).Value (.iface 0) ∧
      ((objAt (assignState envIf gInitTwoCands 2 2 0 "L" (.iface 0) 0) 2).Fields.getD
        []).lookup "L" = some 0) :=
  ⟨rfl, by decide, by decide, by decide,
   c10_ambiguity_keeps_first_assignment envIf gInitTwoCands 2 2 0 "L" (.iface 0)
     0 1 [] rfl (by decide) (by decide) (by decide)⟩

/-- C9: a named record whose value is not a pointer to a struct is
skipped whole by both resolution passes: each returns success with the
graph completely unchanged, for any environment, fuel and graph. -/
theorem c9_named_value_type_skipped (env : Env) (fuel : Nat) (g : Graph) (oid : Nat)
    (hname : (objAt g oid).Name ≠ "")
    (hty : isStructPtr (goTypeOf (objAt g oid).Value) = false) :
    populateExplicitF env (fuel + 1) oid g = (.ok, g) ∧
    populateUnnamedInterfaceF env oid g = (.ok, g) := by
  constructor
  · simp [populateExplicitF, hname, hty]
  · simp [populateUnnamedInterfaceF, hname, hty]

/-- Witness for `c9_named_value_type_skipped`: a named record holding a
plain (non-struct-pointer) value. -/
theorem c9_named_value_type_skipped_witness :
    (objAt gNamedRaw 0).Name ≠ "" ∧
    isStructPtr (goTypeOf (objAt gNamedRaw 0).Value) = false ∧
    (populateExplicitF envABC 5 0 gNamedRaw = (.ok, gNamedRaw) ∧
      populateUnnamedInterfaceF envABC 0 gNamedRaw = (.ok, gNamedRaw)) :=
  ⟨by decide, rfl, c9_named_value_type_skipped envABC 4 gNamedRaw 0 (by decide) rfl⟩

/-- `scanQ` strictly shrinks its input when it succeeds. -/
theorem scanQ_length : ∀ (l : List Char) (cont r : List Char),
    scanQ l = some (cont, r) → r.length < l.length := by
  intro l
  induction l using scanQ.induct with
  | case1 => intro cont r h; simp [scanQ] at h
  | case2 rest => intro cont r h; simp [scanQ] at h; simp [h.2]
  | case3 c cs ih =>
    intro cont r h
    simp only [scanQ] at h
    cases hs : scanQ cs with
    | none => rw [hs] at h; simp at h
    | some p =>
      rw [hs] at h
      simp at h
      obtain ⟨h1, h2⟩ := h
      have hlt := ih p.1 p.2 (by rw [hs])
      subst h2
      simp
      omega
  | case4 => intro cont r h; simp [scanQ] at h
  | case5 c cs h1 h2 h3 ih =>
    intro cont r h
    simp only [scanQ] at h
    cases hs : scanQ cs with
    | none => rw [hs] at h; simp at h
    | some p =>
      rw [hs] at h
      simp at h
      obtain ⟨hh1, hh2⟩ := h
      have hlt := ih p.1 p.2 (by rw [hs])
      subst hh2
      simp
      omega

theorem dropWhile_length_le {α : Type} (p : α → Bool) (l : List α) :
    (l.dropWhile p).length ≤ l.length := by
  induction l with
  | nil => simp
  | cons x t ih =>
    by_cases h : p x
    · simp [List.dropWhile, h]; omega
    · simp [List.dropWhile, h]

/-- Each loop iteration of the `Extract` scan consumes input. -/
theorem headStep_pair_length (tag key content rest2 : List Char)
    (h : headStep tag = .pair key content rest2) : rest2.length < tag.length := by
  unfold headStep at h
  cases ht1 : tag.dropWhile (fun c => c == ' ') with
  | nil => rw [ht1] at h; simp at h
  | cons x xs =>
    rw [ht1] at h
    simp only [] at h
    have hd1 : (x :: xs).length ≤ tag.length := ht1 ▸ dropWhile_length_le _ tag
    cases ht2 : (x :: xs).dropWhile keyChar with
    | nil => rw [ht2] at h; simp at h
    | cons y ys =>
      rw [ht2] at h
      have hd2 : (y :: ys).length ≤ (x :: xs).length :=
        ht2 ▸ dropWhile_length_le keyChar (x :: xs)
      split at h
      · split at h
        · simp at h
        · rename_i xdum rest_1 hre odum content1 rest21 heq1
          injection h with hk hc hr
          subst hr
          have hq := scanQ_length rest_1 content1 rest21 heq1
          have hlen : (y :: ys).length = rest_1.length + 2 := by rw [hre]; simp
          simp only [List.length_cons] at hd1 hd2 hlen
          omega
      · simp at h

/-- `extractLoop` is fuel-insensitive once the fuel exceeds the tag
length (each loop iteration consumes at least one character). -/
theorem extractLoop_congr (name : List Char) :
    ∀ (f1 f2 : Nat) (tag : List Char), tag.length < f1 → tag.length < f2 →
      extractLoop name f1 tag = extractLoop name f2 tag := by
  intro f1
  induction f1 with
  | zero => intro f2 tag h1 _; simp at h1
  | succ n ih =>
    intro f2 tag h1 h2
    cases f2 with
    | zero => simp at h2
    | succ m =>
      simp only [extractLoop]
      cases hh : headStep tag with
      | done => rfl
      | bad => rfl
      | pair key content rest2 =>
        by_cases hk : key = name
        · simp [hk]
        · simp only [hk, if_false]
          have hlen := headStep_pair_length tag key content rest2 hh
          exact ih m rest2 (by omega) (by omega)

/-- When the whole tag is scan-level well-formed and no pair bears the
queried key, the scan returns found-is-false with no error. -/
theorem extractLoop_absent (name : List Char) :
    ∀ (fuel : Nat) (tag : List Char) (ps : List (List Char × List Char)),
      pairsLoop fuel tag = some ps → (∀ p ∈ ps, p.1 ≠ name) →
      extractLoop name fuel tag = .ok (false, []) := by
  intro fuel
  induction fuel with
  | zero => intro tag ps h _; simp [pairsLoop] at h
  | succ n ih =>
    intro tag ps h hab
    simp only [pairsLoop] at h
    simp only [extractLoop]
    cases hh : headStep tag with
    | done => rfl
    | bad => rw [hh] at h; simp at h
    | pair key content rest2 =>
      rw [hh] at h
      simp only [Option.map_eq_some'] at h
      obtain ⟨ps', hps', hcons⟩ := h
      have hmem : (key, content) ∈ ps := by rw [← hcons]; simp
      have hkey : key ≠ name := hab (key, content) hmem
      simp only [hkey, if_false]
      refine ih rest2 ps' hps' (fun p hp => hab p ?_)
      rw [← hcons]
      simp [hp]

/-- A malformed pair, or an invalidly-escaped value of the queried key,
reached before the key is found, makes `Extract` fail. -/
theorem ErrScan_extract (name : List Char) :
    ∀ (tag : List Char), ErrScan name tag → Extract name tag = .error () := by
  intro tag h
  induction h with
  | bad t hb => simp [Extract, extractLoop, hb]
  | badValue t content rest2 hp hu => simp [Extract, extractLoop, hp, hu]
  | skip t key content rest2 hp hk hrec ih =>
    have hlen := headStep_pair_length t key content rest2 hp
    show extractLoop name (t.length + 1) t = .error ()
    simp only [extractLoop, hp, hk, if_false]
    rw [extractLoop_congr name t.length (rest2.length + 1) rest2 hlen (by omega)]
    exact ih

/-- C8 (amended): `Extract` fails on a malformed pair encountered
before the key is found — a missing colon, missing opening quote or
unterminated quote in any pair scanned before the key, or an invalid
escape sequence (or embedded newline) in the queried key's own value,
where invalid escapes include unknown escape characters and surrogate
or out-of-range code points of the u and U forms — and returns
found-is-false with no error whenever every pair is scan-level
well-formed and the key never appears.  A bare directive is the
distinct outcome found-is-true with the empty value, which `parseTag`
maps to the bare tag, while an absent key maps to an unmanaged
field. -/
theorem c8_extract_error_and_absence :
    (∀ (name tag : List Char) (ps : List (List Char × List Char)),
      pairsOf tag = some ps → (∀ p ∈ ps, p.1 ≠ name) →
      Extract name tag = .ok (false, [])) ∧
    (∀ (name tag : List Char), ErrScan name tag → Extract name tag = .error ()) ∧
    (Extract "inject".toList "inject:\"\"".toList = .ok (true, []) ∧
      parseTag "inject:\"\"" = .ok (some { Name := "", Inline := false, Private := false }) ∧
      Extract "inject".toList "other:\"v\"".toList = .ok (false, []) ∧
      parseTag "other:\"v\"" = .ok none) ∧
    (Extract "inject".toList "inject:\"\\q\"".toList = .error () ∧
      Extract "inject".toList "inject:\"\\uD800\"".toList = .error () ∧
      Extract "inject".toList "inject:\"\\U00110000\"".toList = .error () ∧
      Extract "inject".toList "inject:\"\\u0041\"".toList = .ok (true, ['A'])) :=
  ⟨fun name tag ps h hab => extractLoop_absent name (tag.length + 1) tag ps h hab,
   ErrScan_extract, ⟨rfl, rfl, rfl, rfl⟩, rfl, rfl, rfl, rfl⟩

/-- Witness for `c8_extract_error_and_absence`: the absence clause on a
well-formed single-pair tag with another key, the error clause on a
pair with a missing opening quote, and the error clause on a surrogate
escape in the queried key's value. -/
theorem c8_extract_error_and_absence_witness :
    pairsOf "a:\"b\"".toList = some [(['a'], ['b'])] ∧
    (∀ p ∈ [(['a'], ['b'])], p.1 ≠ "inject".toList) ∧
    Extract "inject".toList "a:\"b\"".toList = .ok (false, []) ∧
    ErrScan "inject".toList "inject:".toList ∧
    Extract "inject".toList "inject:".toList = .error () ∧
    ErrScan "inject".toList "inject:\"\\uD800\"".toList ∧
    Extract "inject".toList "inject:\"\\uD800\"".toList = .error () :=
  ⟨rfl, by decide,
   c8_extract_error_and_absence.1 "inject".toList "a:\"b\"".toList
     [(['a'], ['b'])] rfl (by decide),
   .bad _ rfl,
   c8_extract_error_and_absence.2.1 "inject".toList "inject:".toList (.bad _ rfl),
   .badValue _ ['\\', 'u', 'D', '8', '0', '0'] [] rfl rfl,
   c8_extract_error_and_absence.2.1 "inject".toList "inject:\"\\uD800\"".toList
     (.badValue _ ['\\', 'u', 'D', '8', '0', '0'] [] rfl rfl)⟩

/-- C8 counterexample: a malformed pair (missing colon on the trailing
`x`) does not make `Extract` fail when the queried key was already
found in an earlier pair: the call succeeds. -/
theorem c8_counterexample :
    pairsOf "inject:\"a\" x".toList = none ∧
    Extract "inject".toList "inject:\"a\" x".toList = .ok (true, ['a']) :=
  ⟨rfl, rfl⟩

end GoInject
